import Mathlib

/-!
# Bragu-Pro (BeanLog) — verification of the store, backup codec and cache controller

Shallow embedding of the application logic of the Bragu-Pro espresso logger:
the in-memory store of beans and shots and its mutations (`addBean`,
`updateBean`, `deleteBean`, `addShot`, `deleteShot`, `toggleShotOptimal`),
the derived queries (`shotsForBean`, `bestShot`, `sortedShots`), the backup
codec (`exportData` / `handleImport`), the localStorage persistence guard,
and the service-worker fetch handler (`sw.js`).

Conventions of the embedding:
* All JavaScript numbers (timestamps, doses, ratings, ...) are modelled as
  rationals (`ℚ`); every claim below only compares them, and the IEEE-double
  comparisons performed by the source agree with the exact rational order on
  the values the app stores.
* `Array.prototype.sort` with a comparator `c` is, per ES2019, a *stable*
  sort with respect to the total preorder `a ≼ b ↔ c a b ≤ 0`.  Any two
  stable sorts for the same total preorder produce the same output list, so
  it is modelled by `List.mergeSort` (which Lean's standard library proves
  stable) with `le a b := decide (a ≼ b)`.
* `id` values produced by `generateUUID` are random; the generated id is
  therefore an explicit parameter of `addBean` / `addShot`.
* Optional record fields (`Bean.image`, `Shot.isOptimal`) are `Option`s;
  a missing key and JavaScript `undefined` are both `none`.
-/

namespace BraguPro

/-- JSON values, with numbers as exact rationals.  This models the parsed
form of backup documents (`JSON.parse` output / `JSON.stringify` input). -/
inductive Json where
  | null
  | bool (b : Bool)
  | num (q : ℚ)
  | str (s : String)
  | arr (elems : List Json)
  | obj (fields : List (String × Json))

/-- JavaScript truthiness of a parsed JSON value: `null`, `false`, `0` and
`""` are falsy; every array and object (including empty ones) is truthy. -/
def Json.truthy : Json → Bool
  | .null => false
  | .bool b => b
  | .num q => q != 0
  | .str s => s != ""
  | .arr _ => true
  | .obj _ => true

/-- Property access `j.k` on a parsed JSON value: a key lookup on objects,
`undefined` (here `none`) on everything else. -/
def Json.getField (j : Json) (k : String) : Option Json :=
  match j with
  | .obj fields => fields.lookup k
  | _ => none

/-- Truthiness of a possibly-`undefined` value (`undefined` is falsy). -/
def truthyOpt : Option Json → Bool
  | none => false
  | some j => j.truthy

/-- A bean record (source: `interface Bean`).  `originType` and `roastType`
are string-literal unions in the source and are therefore strings here.
`image` is the optional compressed photo of the later revision. -/
structure Bean where
  id : String
  roaster : String
  name : String
  originType : String
  roastType : String
  tastingNotes : String
  image : Option String
  createdAt : ℚ
deriving DecidableEq

/-- A shot record (source: `interface Shot`).  `isOptimal` is the optional
manual optimal marker of the later revision (`undefined` when absent). -/
structure Shot where
  id : String
  beanId : String
  timestamp : ℚ
  dose : ℚ
  yield : ℚ
  time : ℚ
  grindSetting : String
  rating : ℚ
  notes : String
  isOptimal : Option Bool
deriving DecidableEq

/-- Whether a shot is currently marked optimal: the JavaScript truthiness of
`s.isOptimal` (absent and `false` are both not optimal). -/
def Shot.optimal (s : Shot) : Bool := s.isOptimal.getD false

/-- The in-memory store: the `beans` and `shots` React state of `App`. -/
structure State where
  beans : List Bean
  shots : List Shot
deriving DecidableEq

/-- The bean fields supplied by the add/edit form (`Omit<Bean, 'id' | 'createdAt'>`). -/
structure BeanData where
  roaster : String
  name : String
  originType : String
  roastType : String
  tastingNotes : String
  image : Option String
deriving DecidableEq

/-- The shot fields supplied by the add-shot form (`Omit<Shot, 'id' | 'timestamp'>`). -/
structure ShotData where
  beanId : String
  dose : ℚ
  yield : ℚ
  time : ℚ
  grindSetting : String
  rating : ℚ
  notes : String
  isOptimal : Option Bool
deriving DecidableEq

/-- `{ ...bean, id: generateUUID(), createdAt: Date.now() }`.  The generated
id and the current time are parameters (they come from the environment). -/
def mkBean (newId : String) (now : ℚ) (data : BeanData) : Bean :=
  { id := newId, roaster := data.roaster, name := data.name,
    originType := data.originType, roastType := data.roastType,
    tastingNotes := data.tastingNotes, image := data.image, createdAt := now }

/-- `{ ...shot, id: generateUUID(), timestamp: Date.now() }`. -/
def mkShot (newId : String) (now : ℚ) (data : ShotData) : Shot :=
  { id := newId, beanId := data.beanId, timestamp := now, dose := data.dose,
    yield := data.yield, time := data.time, grindSetting := data.grindSetting,
    rating := data.rating, notes := data.notes, isOptimal := data.isOptimal }

/-- `addBean`: construct the new bean and prepend it (`[newBean, ...prev]`). -/
def addBean (newId : String) (now : ℚ) (data : BeanData) (st : State) : State :=
  { st with beans := mkBean newId now data :: st.beans }

/-- `updateBean`: replace the fields of the bean matching `id` in place. -/
def updateBean (id : String) (data : BeanData) (st : State) : State :=
  { st with beans := st.beans.map fun b =>
      if b.id = id then
        { b with roaster := data.roaster, name := data.name,
                 originType := data.originType, roastType := data.roastType,
                 tastingNotes := data.tastingNotes, image := data.image }
      else b }

/-- `deleteBean`: after the user confirms, drop the bean with the given id and
every shot whose `beanId` references it; a declined confirm is a no-op. -/
def deleteBean (id : String) (confirm : Bool) (st : State) : State :=
  if confirm then
    { beans := st.beans.filter fun b => b.id != id,
      shots := st.shots.filter fun s => s.beanId != id }
  else st

/-- `addShot`: construct the new shot and prepend it (`[newShot, ...prev]`). -/
def addShot (newId : String) (now : ℚ) (data : ShotData) (st : State) : State :=
  { st with shots := mkShot newId now data :: st.shots }

/-- `deleteShot`: after the user confirms, drop the shot with the given id. -/
def deleteShot (id : String) (confirm : Bool) (st : State) : State :=
  if confirm then { st with shots := st.shots.filter fun s => s.id != id }
  else st

/-- The per-shot update performed by `toggleShotOptimal`: within the bean,
flip `isOptimal` on the shot matching `shotId` (`!s.isOptimal`) and force it
to `false` on every other shot; leave shots of other beans untouched. -/
def toggleFun (shotId beanId : String) (s : Shot) : Shot :=
  if s.beanId = beanId then
    if s.id = shotId then { s with isOptimal := some (!s.optimal) }
    else { s with isOptimal := some false }
  else s

/-- `toggleShotOptimal(shotId, beanId)`: `setShots(prev => prev.map(...))`. -/
def toggleShotOptimal (shotId beanId : String) (shots : List Shot) : List Shot :=
  shots.map (toggleFun shotId beanId)

/-- The shots belonging to a bean, in store order
(`shots.filter(s => s.beanId === beanId)`). -/
def shotsForBean (st : State) (beanId : String) : List Shot :=
  st.shots.filter fun s => s.beanId == beanId

/-- Comparator order used by `[...bShots].sort((a, b) => b.rating - a.rating)`:
`a` may precede `b` iff `b.rating ≤ a.rating` (descending by rating). -/
def ratingDescLe (a b : Shot) : Bool := decide (b.rating ≤ a.rating)

/-- Comparator order used by `copy.sort((a, b) => b.timestamp - a.timestamp)`:
`a` may precede `b` iff `b.timestamp ≤ a.timestamp` (descending, newest first). -/
def recentDescLe (a b : Shot) : Bool := decide (b.timestamp ≤ a.timestamp)

/-- The sort mode toggled by the sort button (`type SortOption`). -/
inductive SortOption where
  | rating
  | recent
deriving DecidableEq

/-- `sortedShots` of `BeanDetails`: a stable sort of the bean's shots,
descending by rating or by timestamp according to the selected mode. -/
def sortedShots (st : State) (beanId : String) (mode : SortOption) : List Shot :=
  match mode with
  | .rating => (shotsForBean st beanId).mergeSort ratingDescLe
  | .recent => (shotsForBean st beanId).mergeSort recentDescLe

/-- `bestShot` of `BeanDetails` (later revision): the first shot of the bean
with a truthy `isOptimal` if any (`manualOptimal`), otherwise the first shot
of the stable descending-by-rating sort, absent if the bean has no shots
(`manualOptimal || [...bShots].sort((a, b) => b.rating - a.rating)[0]`). -/
def bestShot (st : State) (beanId : String) : Option Shot :=
  match (shotsForBean st beanId).find? (fun s => s.optimal) with
  | some s => some s
  | none => ((shotsForBean st beanId).mergeSort ratingDescLe).head?

/-! ## Backup codec

`exportData` runs `JSON.stringify({ beans, shots }, null, 2)` and offers the
text as a download; `handleImport` runs `JSON.parse` on the uploaded text.
`JSON.parse(JSON.stringify(v))` is the identity on JSON-representable values,
so the codec is modelled at the level of the parsed document: `exportData`
below produces the `Json` value that the exported text denotes, and
`handleImport` consumes a `Json` value (or `none` for text that fails to
parse). -/

/-- The JSON object `JSON.stringify` produces for a bean; an absent optional
`image` contributes no key. -/
def beanToJson (b : Bean) : Json :=
  .obj ([("id", .str b.id), ("roaster", .str b.roaster), ("name", .str b.name),
         ("originType", .str b.originType), ("roastType", .str b.roastType),
         ("tastingNotes", .str b.tastingNotes)]
    ++ (match b.image with
        | some i => [("image", Json.str i)]
        | none => [])
    ++ [("createdAt", .num b.createdAt)])

/-- The JSON object `JSON.stringify` produces for a shot; an absent optional
`isOptimal` contributes no key. -/
def shotToJson (s : Shot) : Json :=
  .obj ([("id", .str s.id), ("beanId", .str s.beanId),
         ("timestamp", .num s.timestamp), ("dose", .num s.dose),
         ("yield", .num s.yield), ("time", .num s.time),
         ("grindSetting", .str s.grindSetting), ("rating", .num s.rating),
         ("notes", .str s.notes)]
    ++ (match s.isOptimal with
        | some o => [("isOptimal", Json.bool o)]
        | none => []))

/-- `exportData`: the document `{ "beans": [...], "shots": [...] }` holding
the complete current collections. -/
def exportData (st : State) : Json :=
  .obj [("beans", .arr (st.beans.map beanToJson)),
        ("shots", .arr (st.shots.map shotToJson))]

/-- Read a JSON value back as a string field. -/
def Json.asStr : Option Json → Option String
  | some (.str s) => some s
  | _ => none

/-- Read a JSON value back as a numeric field. -/
def Json.asNum : Option Json → Option ℚ
  | some (.num q) => some q
  | _ => none

/-- The bean record denoted by a parsed JSON object (the identification of a
JSON object with the in-memory record the source's untyped `setBeans`
assignment performs); `none` when the object is not a bean record. -/
def jsonToBean (j : Json) : Option Bean := do
  let id ← Json.asStr (j.getField "id")
  let roaster ← Json.asStr (j.getField "roaster")
  let name ← Json.asStr (j.getField "name")
  let originType ← Json.asStr (j.getField "originType")
  let roastType ← Json.asStr (j.getField "roastType")
  let tastingNotes ← Json.asStr (j.getField "tastingNotes")
  let image : Option String := Json.asStr (j.getField "image")
  let createdAt ← Json.asNum (j.getField "createdAt")
  some { id := id, roaster := roaster, name := name, originType := originType,
         roastType := roastType, tastingNotes := tastingNotes, image := image,
         createdAt := createdAt }

/-- The shot record denoted by a parsed JSON object; `none` when the object
is not a shot record. -/
def jsonToShot (j : Json) : Option Shot := do
  let id ← Json.asStr (j.getField "id")
  let beanId ← Json.asStr (j.getField "beanId")
  let timestamp ← Json.asNum (j.getField "timestamp")
  let dose ← Json.asNum (j.getField "dose")
  let yieldG ← Json.asNum (j.getField "yield")
  let time ← Json.asNum (j.getField "time")
  let grindSetting ← Json.asStr (j.getField "grindSetting")
  let rating ← Json.asNum (j.getField "rating")
  let notes ← Json.asStr (j.getField "notes")
  let isOptimal : Option Bool :=
    match j.getField "isOptimal" with
    | some (.bool o) => some o
    | _ => none
  some { id := id, beanId := beanId, timestamp := timestamp, dose := dose,
         yield := yieldG, time := time, grindSetting := grindSetting,
         rating := rating, notes := notes, isOptimal := isOptimal }

/-- Elementwise decoding of a JSON array; `none` as soon as one element
fails to decode. -/
def decodeList (f : Json → Option α) : List Json → Option (List α)
  | [] => some []
  | j :: rest => do
      let a ← f j
      let as ← decodeList f rest
      some (a :: as)

/-- The bean list denoted by the `beans` value of a backup document. -/
def decodeBeans : Json → Option (List Bean)
  | .arr xs => decodeList jsonToBean xs
  | _ => none

/-- The shot list denoted by the `shots` value of a backup document. -/
def decodeShots : Json → Option (List Shot)
  | .arr xs => decodeList jsonToShot xs
  | _ => none

/-- `handleImport` (current revision): `input` is the parse result of the
uploaded file (`none` when `JSON.parse` throws), `confirm` the user's answer
to the overwrite prompt.  Returns the resulting store state together with
whether a failure was reported to the user (the `alert` in the catch branch).

The source checks only `parsed.beans && parsed.shots` (truthiness — no deep
validation) and then assigns the parsed arrays to the typed state unchecked.
Parsed values that are not encodings of bean/shot records denote states
outside this typed embedding; the embedding leaves the state unchanged on
that branch, which no claim depends on. -/
def handleImport (input : Option Json) (confirm : Bool) (st : State) :
    State × Bool :=
  match input with
  | none => (st, true)
  | some parsed =>
    if truthyOpt (parsed.getField "beans") && truthyOpt (parsed.getField "shots") then
      if confirm then
        match (parsed.getField "beans").bind decodeBeans,
              (parsed.getField "shots").bind decodeShots with
        | some bs, some ss => ({ beans := bs, shots := ss }, false)
        | _, _ => (st, false)
      else (st, false)
    else (st, false)

/-- `handleImport` of the v0.1 revision, which differs only in reporting a
failure (`alert("Invalid backup file format.")`) when the parsed document
lacks a truthy `beans` or `shots` key. -/
def handleImportV01 (input : Option Json) (confirm : Bool) (st : State) :
    State × Bool :=
  match input with
  | none => (st, true)
  | some parsed =>
    if truthyOpt (parsed.getField "beans") && truthyOpt (parsed.getField "shots") then
      if confirm then
        match (parsed.getField "beans").bind decodeBeans,
              (parsed.getField "shots").bind decodeShots with
        | some bs, some ss => ({ beans := bs, shots := ss }, false)
        | _, _ => (st, false)
      else (st, false)
    else (st, true)

/-! ## Persistence trace semantics

Every store mutation re-renders `App`, and the `useEffect` hooked on
`[beans, shots]` then writes `JSON.stringify({ beans, shots })` to
localStorage — in the current revision only behind the guard
`beans.length > 0 || shots.length > 0`. -/

/-- A user-triggered store action.  Generated ids and timestamps are carried
explicitly (they come from `generateUUID` / `Date.now`); the `confirm`
parameters are the answers to the blocking confirmation prompts. -/
inductive Action where
  | addBean (newId : String) (now : ℚ) (data : BeanData)
  | updateBean (id : String) (data : BeanData)
  | deleteBean (id : String) (confirm : Bool)
  | addShot (newId : String) (now : ℚ) (data : ShotData)
  | deleteShot (id : String) (confirm : Bool)
  | toggleOptimal (shotId beanId : String)
  | importData (input : Option Json) (confirm : Bool)

/-- The state transition of one user action. -/
def applyAction (st : State) : Action → State
  | .addBean newId now data => addBean newId now data st
  | .updateBean id data => updateBean id data st
  | .deleteBean id confirm => deleteBean id confirm st
  | .addShot newId now data => addShot newId now data st
  | .deleteShot id confirm => deleteShot id confirm st
  | .toggleOptimal shotId beanId =>
      { st with shots := toggleShotOptimal shotId beanId st.shots }
  | .importData input confirm => (handleImport input confirm st).1

/-- The localStorage-sync guard of the current revision: the `useEffect`
writes only while `beans.length > 0 || shots.length > 0`. -/
def persistGuard (st : State) : Bool :=
  !st.beans.isEmpty || !st.shots.isEmpty

/-- The snapshots written to localStorage while running a sequence of user
actions: after each action the sync effect runs and, when the guard allows,
persists the new state. -/
def runWrites (st : State) : List Action → List State
  | [] => []
  | a :: rest =>
    let st' := applyAction st a
    (if persistGuard st' then [st'] else []) ++ runWrites st' rest

/-! ## Reachable store states

States the running app can reach from the initial empty state through its
user-triggered mutations.  The add-shot form always submits
`isOptimal: false`, and generated UUIDs are assumed not to collide with ids
already in the store (the source draws them from `crypto.randomUUID`).
Restoring a backup file is the bulk replacement of the whole store and is
treated as establishing a new initial state, not as a reachability step. -/
inductive Reachable : State → Prop where
  | init : Reachable ⟨[], []⟩
  | addBean {st} (newId : String) (now : ℚ) (data : BeanData)
      (h : Reachable st) : Reachable (addBean newId now data st)
  | updateBean {st} (id : String) (data : BeanData)
      (h : Reachable st) : Reachable (updateBean id data st)
  | deleteBean {st} (id : String) (confirm : Bool)
      (h : Reachable st) : Reachable (deleteBean id confirm st)
  | addShot {st} (newId : String) (now : ℚ) (data : ShotData)
      (hfresh : newId ∉ st.shots.map Shot.id)
      (hopt : data.isOptimal = some false)
      (h : Reachable st) : Reachable (addShot newId now data st)
  | deleteShot {st} (id : String) (confirm : Bool)
      (h : Reachable st) : Reachable (deleteShot id confirm st)
  | toggleOptimal {st} (shotId beanId : String)
      (h : Reachable st) :
      Reachable { st with shots := toggleShotOptimal shotId beanId st.shots }

/-- Number of optimal-marked shots a bean has in a shot list. -/
def optCount (beanId : String) (shots : List Shot) : Nat :=
  shots.countP fun s => s.beanId == beanId && s.optimal

/-! ## Service worker (`sw.js`, cache generation `beanlog-v8`) -/

/-- A cached or fetched HTTP response, abstracted to its body. -/
structure Response where
  body : String
deriving DecidableEq

/-- An intercepted request: its method, URL and mode
(`mode = "navigate"` for page navigations). -/
structure Request where
  method : String
  url : String
  mode : String
deriving DecidableEq

/-- The contents of the service worker's cache, keyed by request URL. -/
def Cache := List (String × Response)

/-- `caches.match`: the first cached entry for the URL, if any. -/
def cacheMatch (cache : Cache) (url : String) : Option Response :=
  cache.lookup url

/-- Whether `pat` occurs as a contiguous substring (JS `String.includes`). -/
def listHasInfix (pat : List Char) : List Char → Bool
  | [] => pat.isEmpty
  | c :: rest => pat.isPrefixOf (c :: rest) || listHasInfix pat rest

/-- JS `url.includes(pat)`. -/
def strIncludes (s pat : String) : Bool := listHasInfix pat.toList s.toList

/-- Outcome of the fetch handler for one intercepted request. -/
inductive FetchOutcome where
  | bypass
  | respond (r : Response)
  | failed
deriving DecidableEq

/-- The `fetch` listener of `sw.js` (generation `beanlog-v8`).  `net` is the
outcome the network would give for this request (`none` = network failure).

* non-GET requests are not intercepted;
* `unpkg.com` / `tailwindcss.com` URLs are cache-first, network on miss;
* everything else is network-first; on network failure the catch branch runs
  `caches.match(event.request) || (event.request.mode === 'navigate' ?
  caches.match('/index.html') : null)`.  The left operand of `||` is a
  Promise object, which is always truthy in JavaScript, so the right operand
  is never evaluated: the handler resolves with the cache-lookup result,
  which is `undefined` on a cache miss (the request then fails with a
  network error), and the navigation fallback to the cached root document is
  unreachable. -/
def handleFetch (cache : Cache) (net : Option Response) (req : Request) :
    FetchOutcome :=
  if req.method != "GET" then .bypass
  else if strIncludes req.url "unpkg.com" || strIncludes req.url "tailwindcss.com" then
    match cacheMatch cache req.url with
    | some r => .respond r
    | none =>
      match net with
      | some r => .respond r
      | none => .failed
  else
    match net with
    | some r => .respond r
    | none =>
      match cacheMatch cache req.url with
      | some r => .respond r
      | none => .failed

/-- Modelled from the spec: the intended fallback chain of §4.4 — the code's
catch branch with the `||` read as the spec describes it, so that when no
matching entry is cached and the request is a page navigation, the cached
root document is served.  (The deployed handler never reaches that fallback;
see `handleFetch`.) -/
def handleFetchSpec (cache : Cache) (net : Option Response) (req : Request) :
    FetchOutcome :=
  if req.method != "GET" then .bypass
  else if strIncludes req.url "unpkg.com" || strIncludes req.url "tailwindcss.com" then
    match cacheMatch cache req.url with
    | some r => .respond r
    | none =>
      match net with
      | some r => .respond r
      | none => .failed
  else
    match net with
    | some r => .respond r
    | none =>
      match cacheMatch cache req.url with
      | some r => .respond r
      | none =>
        if req.mode = "navigate" then
          match cacheMatch cache "/index.html" with
          | some r => .respond r
          | none => .failed
        else .failed

/-! ## Concrete sample data (used by witnesses and counterexamples) -/

/-- A sample bean. -/
def beanA : Bean :=
  { id := "beanA", roaster := "Origin Coffee", name := "Kenya AA",
    originType := "Single Origin", roastType := "Medium",
    tastingNotes := "stone fruit", image := none, createdAt := 100 }

/-- A second sample bean. -/
def beanB : Bean :=
  { id := "beanB", roaster := "Roast Lab", name := "House Blend",
    originType := "Blend", roastType := "Dark", tastingNotes := "",
    image := some "data:image/jpeg;base64,xyz", createdAt := 200 }

/-- A highly rated, unmarked shot of `beanA`. -/
def shotA1 : Shot :=
  { id := "sA1", beanId := "beanA", timestamp := 300, dose := 18, yield := 36,
    time := 30, grindSetting := "1.4", rating := 9, notes := "",
    isOptimal := none }

/-- A low-rated shot of `beanA` carrying the manual optimal marker. -/
def shotA2 : Shot :=
  { id := "sA2", beanId := "beanA", timestamp := 250, dose := 17, yield := 40,
    time := 28, grindSetting := "1.6", rating := 3, notes := "gusher",
    isOptimal := some true }

/-- A shot of `beanB`. -/
def shotB1 : Shot :=
  { id := "sB1", beanId := "beanB", timestamp := 280, dose := 18, yield := 45,
    time := 25, grindSetting := "2.0", rating := 6, notes := "",
    isOptimal := some true }

/-- A sample store holding both beans and their shots. -/
def sampleState : State :=
  { beans := [beanA, beanB], shots := [shotA1, shotA2, shotB1] }

/-- A parsed backup document that lacks the top-level `shots` key. -/
def docMissingShots : Json :=
  Json.obj [("beans", Json.arr [])]

/-- A store in which `beanA`'s only shot carries no optimal marker. -/
def plainState : State :=
  { beans := [beanA], shots := [shotA1] }

/-- A shot tying with `shotT2` on both rating and timestamp. -/
def shotT1 : Shot :=
  { id := "sT1", beanId := "beanA", timestamp := 400, dose := 18, yield := 36,
    time := 30, grindSetting := "1.4", rating := 7, notes := "first",
    isOptimal := none }

/-- A shot tying with `shotT1` on both rating and timestamp. -/
def shotT2 : Shot :=
  { id := "sT2", beanId := "beanA", timestamp := 400, dose := 18, yield := 38,
    time := 31, grindSetting := "1.4", rating := 7, notes := "second",
    isOptimal := none }

/-- A store whose two shots tie on every sort key. -/
def tieState : State :=
  { beans := [beanA], shots := [shotT1, shotT2] }

/-- Sample form input for a new bean. -/
def beanDataC : BeanData :=
  { roaster := "Third Wave", name := "Geisha", originType := "Single Origin",
    roastType := "Light-Medium", tastingNotes := "jasmine", image := none }

/-- Sample form input for a new shot of `beanA` (the add-shot form always
submits `isOptimal: false`). -/
def shotDataC : ShotData :=
  { beanId := "beanA", dose := 18, yield := 36, time := 30,
    grindSetting := "1.4", rating := 7, notes := "", isOptimal := some false }

/-- The cached copy of the root document. -/
def rootResp : Response := ⟨"app shell"⟩

/-- A cached copy of an app asset. -/
def appResp : Response := ⟨"cached asset"⟩

/-- A cache holding the root document and one asset. -/
def swCache : Cache := [("/index.html", rootResp), ("/app.js", appResp)]

/-- A page navigation to an uncached same-origin URL. -/
def navReq : Request :=
  { method := "GET", url := "/about", mode := "navigate" }

/-- A plain GET for a cached same-origin asset. -/
def assetReq : Request :=
  { method := "GET", url := "/app.js", mode := "no-cors" }

/-! ## Codec lemmas -/

lemma jsonToBean_beanToJson (b : Bean) : jsonToBean (beanToJson b) = some b := by
  cases b with
  | mk id roaster name originType roastType tastingNotes image createdAt =>
    cases image <;>
      simp [beanToJson, jsonToBean, Json.getField, Json.asStr, Json.asNum, List.lookup]

lemma jsonToShot_shotToJson (s : Shot) : jsonToShot (shotToJson s) = some s := by
  cases s with
  | mk id beanId timestamp dose yieldG time grindSetting rating notes isOptimal =>
    cases isOptimal <;>
      simp [shotToJson, jsonToShot, Json.getField, Json.asStr, Json.asNum, List.lookup]

lemma decodeList_jsonToBean (bs : List Bean) :
    decodeList jsonToBean (bs.map beanToJson) = some bs := by
  induction bs with
  | nil => rfl
  | cons b rest ih => simp [decodeList, jsonToBean_beanToJson, ih]

lemma decodeList_jsonToShot (ss : List Shot) :
    decodeList jsonToShot (ss.map shotToJson) = some ss := by
  induction ss with
  | nil => rfl
  | cons s rest ih => simp [decodeList, jsonToShot_shotToJson, ih]

/-- C3: for every in-memory store state, importing the document produced by
`exportData` — with the user confirming the overwrite and no intervening
mutation — reproduces a store whose beans and shots collections are equal to
the originals (round-trip identity), and reports no failure. -/
theorem importExport_roundTrip (st : State) :
    handleImport (some (exportData st)) true st = (st, false) := by
  simp [handleImport, exportData, Json.getField, List.lookup, truthyOpt,
    Json.truthy, decodeBeans, decodeShots, decodeList_jsonToBean,
    decodeList_jsonToShot]

/-! ## Toggle / invariant lemmas -/

lemma toggleFun_id (shotId beanId : String) (s : Shot) :
    (toggleFun shotId beanId s).id = s.id := by
  rw [toggleFun]
  split <;> (try split) <;> rfl

lemma toggleFun_beanId (shotId beanId : String) (s : Shot) :
    (toggleFun shotId beanId s).beanId = s.beanId := by
  rw [toggleFun]
  split <;> (try split) <;> rfl

lemma toggle_map_id (shotId beanId : String) (shots : List Shot) :
    (toggleShotOptimal shotId beanId shots).map Shot.id = shots.map Shot.id := by
  rw [toggleShotOptimal, List.map_map]
  exact List.map_congr_left fun s _ => toggleFun_id shotId beanId s

lemma countP_le_one_of_id (l : List Shot) (sid : String)
    (h : (l.map Shot.id).Nodup) (p : Shot → Bool)
    (hp : ∀ s, p s = true → s.id = sid) : l.countP p ≤ 1 := by
  induction l with
  | nil => simp
  | cons s rest ih =>
    rw [List.countP_cons]
    by_cases hs : p s = true
    · have hid : s.id = sid := hp s hs
      have hzero : rest.countP p = 0 := by
        rw [List.countP_eq_zero]
        intro t ht hpt
        have : t.id = sid := hp t hpt
        have : s.id ∈ rest.map Shot.id := by
          rw [hid, ← this]
          exact List.mem_map_of_mem Shot.id ht
        simp at h
        exact absurd this (by simpa [hid] using h.1)
      simp [hs, hzero]
    · have := ih (by simpa using (List.nodup_cons.mp (by simpa using h)).2)
      simp [hs]
      omega

lemma optCount_toggle_le (shotId beanId bid : String) (shots : List Shot)
    (hnd : (shots.map Shot.id).Nodup) (hle : optCount bid shots ≤ 1) :
    optCount bid (toggleShotOptimal shotId beanId shots) ≤ 1 := by
  rw [optCount, toggleShotOptimal, List.countP_map]
  by_cases hbid : bid = beanId
  · subst hbid
    apply countP_le_one_of_id shots shotId hnd
    intro s hs
    simp only [Function.comp, toggleFun] at hs
    by_cases h1 : s.beanId = bid
    · by_cases h2 : s.id = shotId
      · exact h2
      · simp [h1, h2, Shot.optimal] at hs
    · simp [h1] at hs
  · refine le_trans (le_of_eq ?_) hle
    rw [optCount]
    apply List.countP_congr
    intro s _
    simp only [Function.comp, toggleFun]
    by_cases h1 : s.beanId = beanId
    · by_cases h2 : s.id = shotId <;>
        simp [h1, h2, Shot.optimal, Ne.symm hbid]
    · simp [h1]

/-- In every reachable store state, shot ids are pairwise distinct and every
bean has at most one optimal-marked shot. -/
lemma reachable_inv {st : State} (h : Reachable st) :
    (st.shots.map Shot.id).Nodup ∧ ∀ bid, optCount bid st.shots ≤ 1 := by
  induction h with
  | init => simp [optCount]
  | addBean newId now data h ih => simpa [addBean] using ih
  | updateBean id data h ih => simpa [updateBean] using ih
  | deleteBean id confirm h ih =>
    cases confirm with
    | false => simpa [deleteBean] using ih
    | true =>
      constructor
      · exact ih.1.sublist ((List.filter_sublist _).map Shot.id)
      · intro bid
        exact le_trans (List.Sublist.countP_le _ (List.filter_sublist _)) (ih.2 bid)
  | addShot newId now data hfresh hopt h ih =>
    constructor
    · simp only [addShot, List.map_cons]
      exact List.nodup_cons.mpr ⟨hfresh, ih.1⟩
    · intro bid
      have : (mkShot newId now data).optimal = false := by
        simp [mkShot, Shot.optimal, hopt]
      simpa [addShot, optCount, List.countP_cons, this] using ih.2 bid
  | deleteShot id confirm h ih =>
    cases confirm with
    | false => simpa [deleteShot] using ih
    | true =>
      constructor
      · exact ih.1.sublist ((List.filter_sublist _).map Shot.id)
      · intro bid
        exact le_trans (List.Sublist.countP_le _ (List.filter_sublist _)) (ih.2 bid)
  | toggleOptimal shotId beanId h ih =>
    constructor
    · rw [toggle_map_id]
      exact ih.1
    · intro bid
      exact optCount_toggle_le shotId beanId bid _ ih.1 (ih.2 bid)

/-- C6 (counterexample): a well-formed document lacking the top-level
`shots` key is rejected and the store keeps its pre-import contents, but —
contrary to the claim — no failure is reported to the user: the current
`handleImport` has no `else` branch on the presence check, so the reported
flag is `false`. -/
theorem import_missingShots_silent :
    handleImport (some docMissingShots) true sampleState = (sampleState, false) ∧
    (handleImport (some docMissingShots) true sampleState).2 ≠ true := by
  constructor
  · rfl
  · simp [handleImport, docMissingShots, Json.getField, List.lookup, truthyOpt]

/-- C6 (amended): for every import document that fails to parse or lacks the
top-level `beans` or `shots` key, import leaves the store's collections
exactly as they were; a parse failure reports a failure to the user, while a
parsed document lacking a required key is silently ignored without a report
(the v0.1 revision did report it). -/
theorem import_failure_leavesStore (st : State) (confirm : Bool) :
    handleImport none confirm st = (st, true) ∧
    (∀ j : Json, j.getField "beans" = none ∨ j.getField "shots" = none →
      handleImport (some j) confirm st = (st, false)) ∧
    (∀ j : Json, j.getField "beans" = none ∨ j.getField "shots" = none →
      handleImportV01 (some j) confirm st = (st, true)) := by
  refine ⟨rfl, ?_, ?_⟩ <;>
    · intro j hj
      rcases hj with h | h <;> simp [handleImport, handleImportV01, truthyOpt, h]

/-- Witness for `import_failure_leavesStore` at a concrete document. -/
theorem import_failure_witness :
    (docMissingShots.getField "beans" = none ∨ docMissingShots.getField "shots" = none) ∧
    handleImport (some docMissingShots) false sampleState = (sampleState, false) := by
  refine ⟨Or.inr rfl, ?_⟩
  exact (import_failure_leavesStore sampleState false).2.1 docMissingShots (Or.inr rfl)

/-- C4: deleting a bean with id `B` (with the user confirming) removes
exactly that bean and every shot whose `beanId = B`; every other bean and
every shot with a different `beanId` survives unchanged, and the survivors
keep their relative order (the results are sublists of the originals). -/
theorem deleteBean_spec (st : State) (B : String) :
    ((deleteBean B true st).beans.Sublist st.beans ∧
      ∀ b : Bean, b ∈ (deleteBean B true st).beans ↔ b ∈ st.beans ∧ b.id ≠ B) ∧
    ((deleteBean B true st).shots.Sublist st.shots ∧
      ∀ s : Shot, s ∈ (deleteBean B true st).shots ↔ s ∈ st.shots ∧ s.beanId ≠ B) := by
  refine ⟨⟨?_, ?_⟩, ?_, ?_⟩
  · exact List.filter_sublist st.beans
  · intro b; simp [deleteBean, List.mem_filter]
  · exact List.filter_sublist st.shots
  · intro s; simp [deleteBean, List.mem_filter]

/-- C8 (counterexample): the id of the new bean is whatever `generateUUID`
returns; nothing checks it against the ids already in the store.  When the
generator returns an id already in use (`"beanA"` here — the store contents
are arbitrary, e.g. restored from a backup), the new bean is still prepended
and its id equals an existing bean's id, so the claimed unconditional
uniqueness fails. -/
theorem addBean_collision :
    (addBean "beanA" 400 beanDataC sampleState).beans.head? =
      some (mkBean "beanA" 400 beanDataC) ∧
    (mkBean "beanA" 400 beanDataC).id ∈ sampleState.beans.map Bean.id := by
  constructor
  · rfl
  · decide

/-- C8 (amended): provided the freshly generated id does not collide with an
existing bean id (which the UUID generator makes overwhelmingly likely but
does not check), `addBean` returns a bean whose id differs from the id of
every bean already in the store, and the new bean is placed at the front of
the bean sequence with all previously existing beans unchanged behind it. -/
theorem addBean_spec (newId : String) (now : ℚ) (data : BeanData) (st : State)
    (hfresh : newId ∉ st.beans.map Bean.id) :
    (addBean newId now data st).beans = mkBean newId now data :: st.beans ∧
    ∀ b ∈ st.beans, (mkBean newId now data).id ≠ b.id := by
  refine ⟨rfl, ?_⟩
  intro b hb h
  apply hfresh
  have : b.id = newId := by simpa [mkBean] using h.symm
  exact this ▸ List.mem_map_of_mem Bean.id hb

/-- Witness for `addBean_spec` at a concrete fresh id. -/
theorem addBean_spec_witness :
    "fresh" ∉ sampleState.beans.map Bean.id ∧
    ((addBean "fresh" 500 beanDataC sampleState).beans =
        mkBean "fresh" 500 beanDataC :: sampleState.beans ∧
      ∀ b ∈ sampleState.beans, (mkBean "fresh" 500 beanDataC).id ≠ b.id) :=
  ⟨by decide, addBean_spec "fresh" 500 beanDataC sampleState (by decide)⟩

lemma toggleFun_other (sid bid : String) (s : Shot) (h : s.beanId ≠ bid) :
    toggleFun sid bid s = s := by
  simp [toggleFun, h]

lemma toggleFun_target (sid bid : String) (s : Shot) (h : s.beanId = bid)
    (h2 : s.id = sid) :
    toggleFun sid bid s = { s with isOptimal := some (!s.optimal) } := by
  simp [toggleFun, h, h2]

lemma toggleFun_sibling (sid bid : String) (s : Shot) (h : s.beanId = bid)
    (h2 : s.id ≠ sid) :
    toggleFun sid bid s = { s with isOptimal := some false } := by
  simp [toggleFun, h, h2]

lemma toggleFun_twice (sid1 sid2 bid : String) (hne : sid1 ≠ sid2) (x : Shot)
    (hb : x.beanId = bid) :
    toggleFun sid2 bid (toggleFun sid1 bid x) =
      { x with isOptimal := some (decide (x.id = sid2)) } := by
  by_cases h2 : x.id = sid2
  · rw [toggleFun_sibling sid1 bid x hb (by rw [h2]; exact fun hc => hne hc.symm)]
    rw [toggleFun_target sid2 bid _ (by simpa using hb) (by simpa using h2)]
    simp [Shot.optimal, h2]
  · by_cases h1 : x.id = sid1
    · rw [toggleFun_target sid1 bid x hb h1]
      rw [toggleFun_sibling sid2 bid _ (by simpa using hb) (by simpa using h2)]
      simp [h2]
    · rw [toggleFun_sibling sid1 bid x hb h1]
      rw [toggleFun_sibling sid2 bid _ (by simpa using hb) (by simpa using h2)]
      simp [h2]

/-- C2: `toggleShotOptimal(shotId, beanId)` (i) leaves shots of other beans
untouched, forces `isOptimal := false` on every other shot of the bean, and
flips the flag on the matching shot — so a target that was already optimal
is cleared (pure toggle) and one that was not becomes optimal; (ii) in every
reachable store state each bean has at most one optimal-marked shot; and
(iii) toggling `s1` then `s2` (distinct shots of the same bean) leaves
exactly `s2` optimal: a shot of the bean is optimal afterwards iff its id is
`s2`. -/
theorem toggleOptimal_spec :
    (∀ (shots : List Shot) (sid bid : String) (i : Nat) (s : Shot),
      shots[i]? = some s →
        (s.beanId ≠ bid → (toggleShotOptimal sid bid shots)[i]? = some s) ∧
        (s.beanId = bid → s.id ≠ sid →
          (toggleShotOptimal sid bid shots)[i]? =
            some { s with isOptimal := some false }) ∧
        (s.beanId = bid → s.id = sid →
          (toggleShotOptimal sid bid shots)[i]? =
            some { s with isOptimal := some (!s.optimal) })) ∧
    (∀ st : State, Reachable st → ∀ bid, optCount bid st.shots ≤ 1) ∧
    (∀ (st : State) (sid1 sid2 bid : String), sid1 ≠ sid2 →
      (∃ x ∈ st.shots, x.id = sid2 ∧ x.beanId = bid) →
      (∃ s ∈ toggleShotOptimal sid2 bid (toggleShotOptimal sid1 bid st.shots),
          s.id = sid2 ∧ s.beanId = bid ∧ s.optimal = true) ∧
      (∀ s ∈ toggleShotOptimal sid2 bid (toggleShotOptimal sid1 bid st.shots),
          s.beanId = bid → (s.optimal = true ↔ s.id = sid2))) := by
  refine ⟨?_, ?_, ?_⟩
  · intro shots sid bid i s h
    refine ⟨?_, ?_, ?_⟩ <;> intro h1 <;> try intro h2
    · rw [toggleShotOptimal, List.getElem?_map, h]
      simp [toggleFun_other sid bid s h1]
    · rw [toggleShotOptimal, List.getElem?_map, h]
      simp [toggleFun_sibling sid bid s h1 h2]
    · rw [toggleShotOptimal, List.getElem?_map, h]
      simp [toggleFun_target sid bid s h1 h2]
  · intro st h bid
    exact (reachable_inv h).2 bid
  · intro st sid1 sid2 bid hne hex
    have hmm : toggleShotOptimal sid2 bid (toggleShotOptimal sid1 bid st.shots) =
        st.shots.map fun x => toggleFun sid2 bid (toggleFun sid1 bid x) := by
      rw [toggleShotOptimal, toggleShotOptimal, List.map_map]
      rfl
    constructor
    · obtain ⟨x, hx, hid, hb⟩ := hex
      refine ⟨toggleFun sid2 bid (toggleFun sid1 bid x), ?_, ?_⟩
      · rw [hmm]
        exact List.mem_map_of_mem _ hx
      · rw [toggleFun_twice sid1 sid2 bid hne x hb]
        simp [Shot.optimal, hid, hb]
    · intro s hs hb
      rw [hmm] at hs
      obtain ⟨x, hx, rfl⟩ := List.mem_map.mp hs
      by_cases hxb : x.beanId = bid
      · rw [toggleFun_twice sid1 sid2 bid hne x hxb]
        simp [Shot.optimal]
      · rw [toggleFun_other sid1 bid x hxb, toggleFun_other sid2 bid x hxb] at hb ⊢
        exact absurd hb hxb

/-- Witness for `toggleOptimal_spec`: each part applied at concrete shots of
`sampleState` (and at the empty initial state for the invariant part). -/
theorem toggleOptimal_spec_witness :
    ((([shotA1])[0]? = some shotA1 ∧ shotA1.beanId = "beanA" ∧ shotA1.id = "sA1") ∧
      (toggleShotOptimal "sA1" "beanA" [shotA1])[0]? =
        some { shotA1 with isOptimal := some (!shotA1.optimal) }) ∧
    (Reachable ⟨[], []⟩ ∧ optCount "beanA" (State.mk [] []).shots ≤ 1) ∧
    ((("sA1" : String) ≠ "sA2" ∧
        (∃ x ∈ sampleState.shots, x.id = "sA2" ∧ x.beanId = "beanA")) ∧
      ((∃ s ∈ toggleShotOptimal "sA2" "beanA"
            (toggleShotOptimal "sA1" "beanA" sampleState.shots),
          s.id = "sA2" ∧ s.beanId = "beanA" ∧ s.optimal = true) ∧
        ∀ s ∈ toggleShotOptimal "sA2" "beanA"
            (toggleShotOptimal "sA1" "beanA" sampleState.shots),
          s.beanId = "beanA" → (s.optimal = true ↔ s.id = "sA2"))) := by
  refine ⟨⟨⟨rfl, rfl, rfl⟩, ?_⟩, ⟨Reachable.init, ?_⟩, ⟨⟨by decide, ?_⟩, ?_⟩⟩
  · exact (toggleOptimal_spec.1 [shotA1] "sA1" "beanA" 0 shotA1 rfl).2.2 rfl rfl
  · exact toggleOptimal_spec.2.1 ⟨[], []⟩ Reachable.init "beanA"
  · exact ⟨shotA2, by simp [sampleState], rfl, rfl⟩
  · exact toggleOptimal_spec.2.2 sampleState "sA1" "sA2" "beanA" (by decide)
      ⟨shotA2, by simp [sampleState], rfl, rfl⟩

/-- C10: calling `toggleShotOptimal(shotId, beanId)` when no shot has both
that id and that `beanId` clears `isOptimal` on every shot of the bean,
marks no shot optimal, and leaves every shot of every other bean unchanged
(shots with the matching id but a different bean are untouched too, since
the id test is nested inside the bean test). -/
theorem toggleOptimal_missingTarget (st : State) (shotId beanId : String)
    (hmiss : ∀ s ∈ st.shots, ¬(s.id = shotId ∧ s.beanId = beanId)) :
    (∀ s ∈ toggleShotOptimal shotId beanId st.shots,
        s.beanId = beanId → s.isOptimal = some false) ∧
    (∀ (i : Nat) (s : Shot), st.shots[i]? = some s → s.beanId ≠ beanId →
      (toggleShotOptimal shotId beanId st.shots)[i]? = some s) := by
  constructor
  · intro s hs hb
    rw [toggleShotOptimal] at hs
    obtain ⟨x, hx, rfl⟩ := List.mem_map.mp hs
    by_cases hxb : x.beanId = beanId
    · have hxid : x.id ≠ shotId := fun h => hmiss x hx ⟨h, hxb⟩
      rw [toggleFun_sibling shotId beanId x hxb hxid]
    · rw [toggleFun_other shotId beanId x hxb] at hb ⊢
      exact absurd hb hxb
  · intro i s h hb
    rw [toggleShotOptimal, List.getElem?_map, h]
    simp [toggleFun_other shotId beanId s hb]

/-- Witness for `toggleOptimal_missingTarget`: shot `sB1` exists but belongs
to `beanB`, so toggling it against `beanA` clears `beanA`'s marks only. -/
theorem toggleOptimal_missingTarget_witness :
    (∀ s ∈ sampleState.shots, ¬(s.id = "sB1" ∧ s.beanId = "beanA")) ∧
    ((∀ s ∈ toggleShotOptimal "sB1" "beanA" sampleState.shots,
        s.beanId = "beanA" → s.isOptimal = some false) ∧
      (∀ (i : Nat) (s : Shot), sampleState.shots[i]? = some s →
        s.beanId ≠ "beanA" →
        (toggleShotOptimal "sB1" "beanA" sampleState.shots)[i]? = some s)) :=
  ⟨by decide, toggleOptimal_missingTarget sampleState "sB1" "beanA" (by decide)⟩

/-! ## Comparator facts -/

lemma ratingDescLe_trans : ∀ (a b c : Shot),
    ratingDescLe a b → ratingDescLe b c → ratingDescLe a c := by
  intro a b c hab hbc
  simp only [ratingDescLe, decide_eq_true_eq] at *
  exact le_trans hbc hab

lemma ratingDescLe_total : ∀ (a b : Shot), ratingDescLe a b || ratingDescLe b a := by
  intro a b
  simp only [ratingDescLe]
  rcases le_total a.rating b.rating with h | h <;> simp [h]

lemma recentDescLe_trans : ∀ (a b c : Shot),
    recentDescLe a b → recentDescLe b c → recentDescLe a c := by
  intro a b c hab hbc
  simp only [recentDescLe, decide_eq_true_eq] at *
  exact le_trans hbc hab

lemma recentDescLe_total : ∀ (a b : Shot), recentDescLe a b || recentDescLe b a := by
  intro a b
  simp only [recentDescLe]
  rcases le_total a.timestamp b.timestamp with h | h <;> simp [h]

/-- C1: `bestShot(beanId)` returns the bean's shot with a truthy `isOptimal`
when one exists — regardless of its rating relative to the bean's other
shots; when no shot of the bean is marked optimal it returns a shot with the
maximum rating among the bean's shots; and it is absent when the bean has no
shots. -/
theorem bestShot_spec (st : State) (bid : String) :
    (∀ s ∈ shotsForBean st bid, s.optimal = true →
      (∀ t ∈ shotsForBean st bid, t.optimal = true → t = s) →
      bestShot st bid = some s) ∧
    ((∀ s ∈ shotsForBean st bid, s.optimal = false) → shotsForBean st bid ≠ [] →
      ∃ m, bestShot st bid = some m ∧ m ∈ shotsForBean st bid ∧
        ∀ t ∈ shotsForBean st bid, t.rating ≤ m.rating) ∧
    (shotsForBean st bid = [] → bestShot st bid = none) := by
  refine ⟨?_, ?_, ?_⟩
  · intro s hs hopt huniq
    have hsome : ((shotsForBean st bid).find? (fun t => t.optimal)).isSome := by
      rw [List.find?_isSome]
      exact ⟨s, hs, hopt⟩
    obtain ⟨x, hx⟩ := Option.isSome_iff_exists.mp hsome
    have hxmem := List.mem_of_find?_eq_some hx
    have hxopt := List.find?_some hx
    rw [bestShot, hx]
    rw [huniq x hxmem hxopt]
  · intro hnone hne
    have hfind : (shotsForBean st bid).find? (fun t => t.optimal) = none := by
      rw [List.find?_eq_none]
      intro t ht
      simp [hnone t ht]
    rw [bestShot, hfind]
    match hms : (shotsForBean st bid).mergeSort ratingDescLe with
    | [] =>
      exfalso
      apply hne
      have := List.mergeSort_perm (shotsForBean st bid) ratingDescLe
      rw [hms] at this
      exact this.symm.eq_nil
    | m :: rest =>
      refine ⟨m, rfl, ?_, ?_⟩
      · have : m ∈ (shotsForBean st bid).mergeSort ratingDescLe := by
          rw [hms]; exact List.mem_cons_self m rest
        exact List.mem_mergeSort.mp this
      · intro t ht
        have hts : t ∈ (shotsForBean st bid).mergeSort ratingDescLe :=
          List.mem_mergeSort.mpr ht
        rw [hms] at hts
        rcases List.mem_cons.mp hts with rfl | htr
        · exact le_refl _
        · have hsorted := List.sorted_mergeSort ratingDescLe_trans ratingDescLe_total
            (shotsForBean st bid)
          rw [hms] at hsorted
          have := (List.pairwise_cons.mp hsorted).1 t htr
          simpa [ratingDescLe] using this
  · intro h
    rw [bestShot, h]
    simp

/-- Witness for `bestShot_spec`: in `sampleState`, bean `beanA` has the
rating-9 shot `sA1` and the rating-3 manually-marked shot `sA2`, and
`bestShot` picks `sA2`; in `plainState` nothing is marked and the rating
maximum is picked; a bean with no shots yields nothing. -/
theorem bestShot_spec_witness :
    ((shotA2 ∈ shotsForBean sampleState "beanA" ∧ shotA2.optimal = true ∧
        (∀ t ∈ shotsForBean sampleState "beanA", t.optimal = true → t = shotA2)) ∧
      bestShot sampleState "beanA" = some shotA2) ∧
    (((∀ s ∈ shotsForBean plainState "beanA", s.optimal = false) ∧
        shotsForBean plainState "beanA" ≠ []) ∧
      (∃ m, bestShot plainState "beanA" = some m ∧
        m ∈ shotsForBean plainState "beanA" ∧
        ∀ t ∈ shotsForBean plainState "beanA", t.rating ≤ m.rating)) ∧
    (shotsForBean sampleState "ghost" = [] ∧
      bestShot sampleState "ghost" = none) := by
  refine ⟨⟨⟨by decide, rfl, by decide⟩, ?_⟩, ⟨⟨by decide, by decide⟩, ?_⟩, ⟨by decide, ?_⟩⟩
  · exact (bestShot_spec sampleState "beanA").1 shotA2 (by decide) rfl (by decide)
  · exact (bestShot_spec plainState "beanA").2.1 (by decide) (by decide)
  · exact (bestShot_spec sampleState "ghost").2.2 (by decide)

/-- C5: `sortedShots(beanId, mode)` returns exactly the bean's shots (a
permutation); in `rating` mode they are in descending rating order and in
`recent` mode in descending timestamp order — strictly descending whenever
the bean's timestamps are pairwise distinct; and in both modes the sort is
stable: any two shots tying on the sort key keep their original relative
order. -/
theorem sortedShots_spec (st : State) (bid : String) :
    (∀ mode, (sortedShots st bid mode).Perm (shotsForBean st bid)) ∧
    (sortedShots st bid .rating).Pairwise (fun a b => b.rating ≤ a.rating) ∧
    (sortedShots st bid .recent).Pairwise (fun a b => b.timestamp ≤ a.timestamp) ∧
    ((shotsForBean st bid).Pairwise (fun a b => a.timestamp ≠ b.timestamp) →
      (sortedShots st bid .recent).Pairwise (fun a b => b.timestamp < a.timestamp)) ∧
    (∀ a b : Shot, [a, b].Sublist (shotsForBean st bid) → a.rating = b.rating →
      [a, b].Sublist (sortedShots st bid .rating)) ∧
    (∀ a b : Shot, [a, b].Sublist (shotsForBean st bid) → a.timestamp = b.timestamp →
      [a, b].Sublist (sortedShots st bid .recent)) := by
  refine ⟨?_, ?_, ?_, ?_, ?_, ?_⟩
  · intro mode
    cases mode <;> exact List.mergeSort_perm _ _
  · exact (List.sorted_mergeSort ratingDescLe_trans ratingDescLe_total
      (shotsForBean st bid)).imp (by simp [ratingDescLe])
  · exact (List.sorted_mergeSort recentDescLe_trans recentDescLe_total
      (shotsForBean st bid)).imp (by simp [recentDescLe])
  · intro hdist
    have hle : (sortedShots st bid .recent).Pairwise
        (fun a b => b.timestamp ≤ a.timestamp) :=
      (List.sorted_mergeSort recentDescLe_trans recentDescLe_total
        (shotsForBean st bid)).imp (by simp [recentDescLe])
    have hne : (sortedShots st bid .recent).Pairwise
        (fun a b => a.timestamp ≠ b.timestamp) :=
      hdist.perm (List.mergeSort_perm _ _).symm (fun h h2 => h h2.symm)
    exact (hle.and hne).imp fun h => lt_of_le_of_ne h.1 (Ne.symm h.2)
  · intro a b hsub heq
    exact List.pair_sublist_mergeSort ratingDescLe_trans ratingDescLe_total
      (by simp [ratingDescLe, heq]) hsub
  · intro a b hsub heq
    exact List.pair_sublist_mergeSort recentDescLe_trans recentDescLe_total
      (by simp [recentDescLe, heq]) hsub

/-- Witness for `sortedShots_spec`: `sampleState`'s `beanA` shots have
distinct timestamps (strict recency order), and `tieState`'s two equal-key
shots keep their original order after sorting. -/
theorem sortedShots_spec_witness :
    ((sortedShots sampleState "beanA" .rating).Perm
        (shotsForBean sampleState "beanA")) ∧
    ((shotsForBean sampleState "beanA").Pairwise
        (fun a b => a.timestamp ≠ b.timestamp) ∧
      (sortedShots sampleState "beanA" .recent).Pairwise
        (fun a b => b.timestamp < a.timestamp)) ∧
    (([shotT1, shotT2].Sublist (shotsForBean tieState "beanA") ∧
        shotT1.rating = shotT2.rating) ∧
      [shotT1, shotT2].Sublist (sortedShots tieState "beanA" .rating)) := by
  refine ⟨(sortedShots_spec sampleState "beanA").1 .rating, ⟨by decide, ?_⟩,
    ⟨⟨by decide, rfl⟩, ?_⟩⟩
  · exact (sortedShots_spec sampleState "beanA").2.2.2.1 (by decide)
  · exact (sortedShots_spec tieState "beanA").2.2.2.2.1 shotT1 shotT2 (by decide) rfl

/-- C7: along every sequence of user actions from any starting state, every
snapshot the store persists has a non-empty bean or shot collection — the
sync guard (`beans.length > 0 || shots.length > 0`) means an all-empty
snapshot is never written, by the startup race or otherwise (the current
code does not even write one after an explicit user import/clear of
everything, which satisfies the claim's exception clause vacuously). -/
theorem persist_neverEmpty (st0 : State) (acts : List Action) :
    ∀ snap ∈ runWrites st0 acts, ¬(snap.beans = [] ∧ snap.shots = []) := by
  induction acts generalizing st0 with
  | nil => intro snap h; simp [runWrites] at h
  | cons a rest ih =>
    intro snap h
    rw [runWrites] at h
    rcases List.mem_append.mp h with h1 | h2
    · by_cases hg : persistGuard (applyAction st0 a) = true
      · simp [hg] at h1
        subst h1
        intro ⟨hb, hs⟩
        rw [persistGuard, hb, hs] at hg
        simp at hg
      · simp [hg] at h1
    · exact ih (applyAction st0 a) snap h2

/-- Witness for `persist_neverEmpty`: adding one bean to the empty store
writes exactly one snapshot, and it is not all-empty. -/
theorem persist_neverEmpty_witness :
    addBean "b1" 1 beanDataC ⟨[], []⟩ ∈
      runWrites ⟨[], []⟩ [Action.addBean "b1" 1 beanDataC] ∧
    ¬((addBean "b1" 1 beanDataC ⟨[], []⟩).beans = [] ∧
      (addBean "b1" 1 beanDataC ⟨[], []⟩).shots = []) :=
  ⟨by decide, persist_neverEmpty ⟨[], []⟩ [Action.addBean "b1" 1 beanDataC]
    (addBean "b1" 1 beanDataC ⟨[], []⟩) (by decide)⟩

/-- C9: the claim's cached-entry fallback does work (`assetReq`), but its
navigation fallback does not: for a GET page navigation to a non-third-party
URL whose network fetch fails and which has no cached entry, the deployed
handler resolves with `undefined` and the request fails, even though the
root document is cached — while the intended fallback chain written in the
same catch branch (`handleFetchSpec`, the spec's reading) would serve the
cached root document.  The `||` is applied to the Promise returned by
`caches.match`, which is always truthy, so the fallback expression is dead
code: a code slip, with the spec matching the evident intent. -/
theorem fetch_navFallback_dead :
    handleFetch swCache none assetReq = .respond appResp ∧
    (navReq.method = "GET" ∧ navReq.mode = "navigate" ∧
      strIncludes navReq.url "unpkg.com" = false ∧
      strIncludes navReq.url "tailwindcss.com" = false ∧
      cacheMatch swCache navReq.url = none ∧
      cacheMatch swCache "/index.html" = some rootResp) ∧
    handleFetch swCache none navReq = .failed ∧
    handleFetchSpec swCache none navReq = .respond rootResp := by
  refine ⟨rfl, ⟨rfl, rfl, rfl, rfl, rfl, rfl⟩, rfl, rfl⟩

end BraguPro
